import Mathlib

/-!
Shallow embedding of the recommendation core of the ListenBuddy system
(class `RecommendationConcept`): candidate generation (model-assisted and
fallback paths), the recommendation selector, feedback application and
bulk clearing, together with proofs of the specified properties.

Modelling conventions:
* The MongoDB collection `Recommendation.recommendations` is a
  `List RecommendationDoc` in natural (insertion) order; `insertMany`
  appends, `find` filters preserving order, `updateMany` maps in place.
* JavaScript numbers are modelled as rationals (`ℚ`); `Date` timestamps
  as natural numbers (milliseconds, compared via `getTime`).
* `freshID` is modelled by threading a starting counter `idStart`; the
  n-th record created by a call gets id `idStart + n`.  Ids are opaque.
* `Array.prototype.sort` with a comparator `cmp` is modelled as the
  stable sort by the total preorder `fun a b => cmp a b ≤ 0`
  (`List.insertionSort` is that stable sort).
* JavaScript string truthiness (`!s`) is modelled as equality with `""`.
* `JSON.parse` restricted to the expected array-of-records shape is an
  uninterpreted parameter `jsonParse`; a parse that throws or yields a
  value of another shape is `none`.
* The LLM client is a `ModelConfig`: absent (fallback path) or present
  and returning a fixed response text for the one call made.
-/

/-- A persisted recommendation record (interface `RecommendationDoc`).
Fields are exactly those of the Mongo document; `_id` is the fresh id
(modelled as a counter value), `feedback` is `boolean | null`. -/
structure RecommendationDoc where
  _id : Nat
  userId : String
  item1 : String
  item2 : String
  itemName : String
  reasoning : String
  confidence : ℚ
  feedback : Option Bool
  createdAt : Nat
  deriving DecidableEq, Repr

/-- The persisted state: the `Recommendation.recommendations` collection
in natural (insertion) order. -/
abbrev RecState := List RecommendationDoc

/-- One entry of `similarArtists` / `similarRecordings` /
`similarReleaseGroups` as passed to `generate`.  The `genres` field of
the source is omitted: it is never read by the generation logic. -/
structure SimilarInput where
  mbid : String
  name : String
  score : ℚ
  deriving DecidableEq, Repr

/-- Source item metadata (`MusicBrainzEntity`).  Only the `id` field is
read by the control logic of `generate` (`sourceItemMetadata?.id ||
sourceItem`); the name/type/genre/tag fields only feed the prompt text
and are omitted.  `id?: string` is an optional field. -/
structure MusicBrainzEntity where
  id : Option String
  deriving DecidableEq, Repr

/-- Structured output expected from the LLM (`LLMRecommendationOutput`).
A missing `mbid` (undefined) is merged with `""`: both are falsy and
both differ from the authoritative source id, so the generation loop
treats them identically. -/
structure LLMRecommendationOutput where
  name : String
  mbid : String
  reasoning : String
  confidence : ℚ
  deriving DecidableEq, Repr

/-- One feedback history entry as returned by `_getFeedbackHistory`. -/
structure FeedbackEntry where
  item : String
  feedback : Bool
  reasoning : String
  sourceItem : String
  deriving DecidableEq, Repr

/-- The feedback history projection: all records of the user whose
`feedback` is not null, projected to
`{item := item2, feedback, reasoning, sourceItem := item1}`. -/
def feedbackHistoryList (state : RecState) (userId : String) : List FeedbackEntry :=
  (state.filter (fun r => r.userId = userId ∧ ¬ r.feedback = none)).map
    (fun r => ⟨r.item2, r.feedback.getD false, r.reasoning, r.item1⟩)

/-- `_getFeedbackHistory(userId)`: validate the user id, then return the
feedback history projection. -/
def getFeedbackHistory (state : RecState) (userId : String) :
    Except String (List FeedbackEntry) :=
  if userId = "" then .error "User ID not specified."
  else .ok (feedbackHistoryList state userId)

/-- `sourceItemMetadata?.id || sourceItem`: the authoritative MBID used
as `item1` of every created record (`||` falls through on a missing or
empty id). -/
def authoritativeSource (sourceItemMetadata : MusicBrainzEntity) (sourceItem : String) : String :=
  match sourceItemMetadata.id with
  | some s => if s = "" then sourceItem else s
  | none => sourceItem

/-- An element of the flattened similarity pool built by
`generateFallbackRecommendations` (`allSimilarItems`). -/
structure PoolItem where
  mbid : String
  name : String
  type : String
  score : ℚ
  deriving DecidableEq, Repr

/-- Flattening of the three similarity lists into `allSimilarItems`,
tagging each entry with its originating kind. -/
def flattenSimilarItems (similarArtists similarRecordings similarReleaseGroups :
    List SimilarInput) : List PoolItem :=
  similarArtists.map (fun a => ⟨a.mbid, a.name, "artist", a.score⟩) ++
  similarRecordings.map (fun r => ⟨r.mbid, r.name, "recording", r.score⟩) ++
  similarReleaseGroups.map (fun g => ⟨g.mbid, g.name, "release-group", g.score⟩)

/-- The order realised by the comparator `(a, b) => b.score - a.score`:
`a` may stay before `b` exactly when the comparator is `≤ 0`. -/
def scoreGE (a b : PoolItem) : Prop := b.score ≤ a.score

instance : DecidableRel scoreGE :=
  fun a b => inferInstanceAs (Decidable (b.score ≤ a.score))

instance : IsTotal PoolItem scoreGE := ⟨fun a b => le_total b.score a.score⟩

instance : IsTrans PoolItem scoreGE := ⟨fun _ _ _ h h' => le_trans h' h⟩

/-- The templated fallback reasoning string naming the entity kind. -/
def fallbackReasoning (t : String) : String :=
  "Based on its similarity as a " ++ t ++ " and shared genres. (LLM not available)"

/-- The `forEach` body of the fallback path: walk the (already sorted,
filtered and sliced) pool; a pool item is accepted while fewer than
`amount` items were accepted (`uniqueRecommendedItems.size < amount`)
and its mbid was not accepted before.  `seen` is the
`uniqueRecommendedItems` set, `cnt` its size (equal to the number of
records pushed so far). -/
def pickUniqueLoop (userId sourceItemMBID : String) (amount : Int) (idStart now : Nat) :
    List PoolItem → List String → Nat → List RecommendationDoc
  | [], _, _ => []
  | it :: rest, seen, cnt =>
    if (cnt : Int) < amount ∧ ¬ it.mbid ∈ seen then
      { _id := idStart + cnt, userId := userId, item1 := sourceItemMBID,
        item2 := it.mbid, itemName := it.name,
        reasoning := fallbackReasoning it.type,
        confidence := it.score / 100, feedback := none, createdAt := now } ::
      pickUniqueLoop userId sourceItemMBID amount idStart now rest (it.mbid :: seen) (cnt + 1)
    else
      pickUniqueLoop userId sourceItemMBID amount idStart now rest seen cnt

/-- `generateFallbackRecommendations`: flatten the similarity lists,
sort by score descending, drop the source item and items already in the
feedback history, keep only the first `amount * 2` remaining entries
(`slice(0, amount * 2)`), then accept up to `amount` unique mbids. -/
def generateFallbackRecommendations (userId sourceItemMBID : String) (amount : Int)
    (similarArtists similarRecordings similarReleaseGroups : List SimilarInput)
    (userFeedbackHistory : List FeedbackEntry) (idStart now : Nat) :
    List RecommendationDoc :=
  let allSimilarItems :=
    flattenSimilarItems similarArtists similarRecordings similarReleaseGroups
  let existingFeedbackItems := userFeedbackHistory.map (·.item)
  let pool := ((List.insertionSort scoreGE allSimilarItems).filter
    (fun it => ¬ it.mbid = sourceItemMBID ∧ ¬ it.mbid ∈ existingFeedbackItems)).take
      (Int.toNat (amount * 2))
  pickUniqueLoop userId sourceItemMBID amount idStart now pool [] 0

/-- The acceptance loop of the model-assisted path of `generate`: stop
once `amount` records were accepted; accept an entry when its mbid is
truthy, differs from the authoritative source id and is not in the
exclusion set built from the feedback history.  `cnt` is the number of
records accepted so far (`newRecommendations.length`). -/
def modelLoop (userId sourceItemMBID : String) (amount : Int)
    (existingFeedbackItems : List String) (idStart now : Nat) :
    List LLMRecommendationOutput → Nat → List RecommendationDoc
  | [], _ => []
  | entry :: rest, cnt =>
    if (cnt : Int) ≥ amount then []
    else if ¬ entry.mbid = "" ∧ ¬ entry.mbid = sourceItemMBID ∧
        ¬ entry.mbid ∈ existingFeedbackItems then
      { _id := idStart + cnt, userId := userId, item1 := sourceItemMBID,
        item2 := entry.mbid, itemName := entry.name, reasoning := entry.reasoning,
        confidence := max 0 (min 1 entry.confidence), feedback := none,
        createdAt := now } ::
      modelLoop userId sourceItemMBID amount existingFeedbackItems idStart now rest (cnt + 1)
    else
      modelLoop userId sourceItemMBID amount existingFeedbackItems idStart now rest cnt

/-- Splits a character list at the first occurrence of the pattern
`pat`, returning the part before the occurrence and the part after it;
`none` when `pat` does not occur. -/
def splitAtFirst (pat : List Char) : List Char → Option (List Char × List Char)
  | [] => if pat.isEmpty then some ([], []) else none
  | c :: rest =>
    if pat.isPrefixOf (c :: rest) then some ([], (c :: rest).drop pat.length)
    else
      match splitAtFirst pat rest with
      | some (pre, post) => some (c :: pre, post)
      | none => none

/-- The regex match of `_parseJSONFromLLMResponse`: the first fenced
block opened by a json fence line and closed by a newline-fence, with
the lazy inner group.  Taking the first opening fence and then the
earliest close is equivalent to the leftmost regex match: if no close
follows the first opening fence, none follows any later one. -/
def extractFencedJSON (text : String) : Option String :=
  match splitAtFirst "```json\n".toList text.toList with
  | none => none
  | some (_, afterOpen) =>
    match splitAtFirst "\n```".toList afterOpen with
    | none => none
    | some (inner, _) => some (String.mk inner)

/-- `_parseJSONFromLLMResponse`: when a fenced block with a nonempty
body is found, parse the body, otherwise parse the whole text (the code
guards on `jsonMatch[1]`, so an empty captured group — a falsy string —
also falls through to the direct parse).  A parse exception yields
`null`, modelled by `jsonParse` returning `none`. -/
def parseJSONFromLLMResponse
    (jsonParse : String → Option (List LLMRecommendationOutput))
    (text : String) : Option (List LLMRecommendationOutput) :=
  match extractFencedJSON text with
  | some inner => if inner = "" then jsonParse text else jsonParse inner
  | none => jsonParse text

/-- Whether an LLM client is configured (`this.geminiLLM`); when it is,
the single `executeLLM` call of a `generate` request returns `response`. -/
inductive ModelConfig where
  | noModel : ModelConfig
  | withModel (response : String) : ModelConfig
  deriving DecidableEq, Repr

/-- The named parameters of `generate`. -/
structure GenerateParams where
  userId : String
  sourceItem : String
  amount : Int
  sourceItemMetadata : MusicBrainzEntity
  similarArtists : List SimilarInput
  similarRecordings : List SimilarInput
  similarReleaseGroups : List SimilarInput
  deriving DecidableEq, Repr

/-- `generate`: validate, resolve the authoritative source id, fetch the
feedback history, then either run the fallback path (no model) or parse
the model response and run the acceptance loop.  Returns the action
result together with the post-call collection state (`insertMany`
appends the new records; a failed call leaves the state unchanged). -/
def generate (jsonParse : String → Option (List LLMRecommendationOutput))
    (cfg : ModelConfig) (p : GenerateParams) (state : RecState)
    (idStart now : Nat) : Except String (List RecommendationDoc) × RecState :=
  if p.userId = "" ∨ p.sourceItem = "" ∨ p.amount ≤ 0 then
    (.error "Invalid user ID, source item or amount specified.", state)
  else
    let sourceItemMBID := authoritativeSource p.sourceItemMetadata p.sourceItem
    let userFeedbackHistory :=
      match getFeedbackHistory state p.userId with
      | .ok h => h
      | .error _ => []
    match cfg with
    | .noModel =>
      let recs := generateFallbackRecommendations p.userId sourceItemMBID p.amount
        p.similarArtists p.similarRecordings p.similarReleaseGroups
        userFeedbackHistory idStart now
      (.ok recs, state ++ recs)
    | .withModel text =>
      match parseJSONFromLLMResponse jsonParse text with
      | none => (.error "Failed to parse LLM recommendations.", state)
      | some parsedRecommendations =>
        let existingFeedbackItems := userFeedbackHistory.map (·.item)
        let recs := modelLoop p.userId sourceItemMBID p.amount existingFeedbackItems
          idStart now parsedRecommendations 0
        (.ok recs, state ++ recs)

/-- A ranking candidate of `getRecommendations` (the elements of the
`candidates` array). -/
structure Candidate where
  recommendedItem : String
  feedback : Option Bool
  confidence : ℚ
  createdAt : Nat
  reasoning : String
  itemName : String
  deriving DecidableEq, Repr

/-- An element of the `itemsWithReasoning` result list. -/
structure ItemWithReasoning where
  item : String
  itemName : String
  reasoning : String
  confidence : ℚ
  deriving DecidableEq, Repr

/-- The per-record candidate computation of `getRecommendations`: the
neighbor endpoint that is not `item` (`recommendedId`) and its display
name — the stored `itemName` names `item2` only, so a record matched
through `item2` contributes the empty name. -/
def candidateOfRecord (item : String) (r : RecommendationDoc) : Candidate :=
  ⟨if r.item1 = item then r.item2 else r.item1, r.feedback, r.confidence,
   r.createdAt, r.reasoning, if r.item1 = item then r.itemName else ""⟩

/-- The candidate-building loop of `getRecommendations`: for each
incident record compute its candidate, skip self-edges and already seen
neighbor ids, and record the rest in encounter order.  `seenItems` is
the dedup set. -/
def buildCandidates (item : String) :
    List RecommendationDoc → List String → List Candidate
  | [], _ => []
  | r :: rest, seenItems =>
    let c := candidateOfRecord item r
    if c.recommendedItem = item ∨ c.recommendedItem ∈ seenItems then
      buildCandidates item rest seenItems
    else
      c :: buildCandidates item rest (c.recommendedItem :: seenItems)

/-- The sort comparator of `getRecommendations` (`candidates.sort`):
positive feedback first, then null, then false; within a tier higher
confidence first, then newer `createdAt` first.  Returns the comparator
value; only its sign matters. -/
def cmpCand (a b : Candidate) : ℚ :=
  if a.feedback = some true ∧ ¬ b.feedback = some true then -1
  else if ¬ a.feedback = some true ∧ b.feedback = some true then 1
  else if a.feedback = none ∧ b.feedback = some false then -1
  else if a.feedback = some false ∧ b.feedback = none then 1
  else if ¬ a.confidence = b.confidence then b.confidence - a.confidence
  else (b.createdAt : ℚ) - (a.createdAt : ℚ)

/-- The total preorder realised by the comparator: `a` may be placed
before `b` exactly when `cmpCand a b ≤ 0`. -/
def candLE (a b : Candidate) : Prop := cmpCand a b ≤ 0

instance : DecidableRel candLE :=
  fun a b => inferInstanceAs (Decidable (cmpCand a b ≤ 0))

/-- Projection of an emitted candidate onto the result shape. -/
def projCandidate (c : Candidate) : ItemWithReasoning :=
  ⟨c.recommendedItem, c.itemName, c.reasoning, c.confidence⟩

/-- The emission loop of `getRecommendations`: walk the sorted
candidates, stop once `amount` entries were emitted, strictly skip
candidates with negative feedback.  `count` is
`finalWithReasoning.length`. -/
def emitLoop (amount : Int) : Nat → List Candidate → List ItemWithReasoning
  | _, [] => []
  | count, c :: rest =>
    if (count : Int) ≥ amount then []
    else if ¬ c.feedback = some false then
      projCandidate c :: emitLoop amount (count + 1) rest
    else emitLoop amount count rest

/-- The `find` query of `getRecommendations`: every record of the user
incident to `item` in either role. -/
def incidentRecords (userId item : String) (state : RecState) :
    List RecommendationDoc :=
  state.filter (fun r => r.userId = userId ∧ (r.item1 = item ∨ r.item2 = item))

/-- Candidates of `getRecommendations` after deduplication (storage
order) and ranking. -/
def selectCandidates (userId item : String) (state : RecState) : List Candidate :=
  List.insertionSort candLE (buildCandidates item (incidentRecords userId item state) [])

/-- `getRecommendations`: validate, fetch incident records, build and
deduplicate candidates, rank them, emit up to `amount` entries skipping
negative feedback. -/
def getRecommendations (userId item : String) (amount : Int) (state : RecState) :
    Except String (List ItemWithReasoning) :=
  if userId = "" ∨ item = "" ∨ amount ≤ 0 then
    .error "Invalid user ID, item or amount specified."
  else .ok (emitLoop amount 0 (selectCandidates userId item state))

/-- `provideFeedback`: validate, update every record of the
`(userId, item2 = recommendedItem)` pair (regardless of `item1`),
setting `feedback` and refreshing `createdAt`; report an error when the
update matched no record. -/
def provideFeedback (userId recommendedItem : String) (feedback : Bool)
    (state : RecState) (now : Nat) : Except String Unit × RecState :=
  if userId = "" ∨ recommendedItem = "" then
    (.error "User ID or recommended item not specified.", state)
  else
    let matchedCount :=
      (state.filter (fun r => r.userId = userId ∧ r.item2 = recommendedItem)).length
    let newState := state.map (fun r =>
      if r.userId = userId ∧ r.item2 = recommendedItem then
        { r with feedback := some feedback, createdAt := now }
      else r)
    if matchedCount = 0 then
      (.error "No existing recommendation found for the provided item and user.", newState)
    else (.ok (), newState)

/-- `clearRecommendations`: delete all records of `userId`, or every
record when `userId` is absent (or empty — a falsy filter argument). -/
def clearRecommendations (userId : Option String) (state : RecState) : RecState :=
  match userId with
  | some u => if u = "" then [] else state.filter (fun r => ¬ r.userId = u)
  | none => []

/-- The recommended-item ids of the feedback history of a user: `item2`
of every record whose feedback is set (either tier).  This is the
exclusion set `existingFeedbackItems` used by both generation paths. -/
def feedbackHistoryItems (state : RecState) (userId : String) : List String :=
  (state.filter (fun r => r.userId = userId ∧ ¬ r.feedback = none)).map (·.item2)

/-- The stored-record invariant claimed by the specification: confidence
within `[0, 1]` and a recommended item different from the source item. -/
def recordInvariant (r : RecommendationDoc) : Prop :=
  0 ≤ r.confidence ∧ r.confidence ≤ 1 ∧ ¬ r.item2 = r.item1

/-- The feedback tier of the three-level ranking: Positive before Unset
before Negative. -/
def tierOf : Option Bool → Nat
  | some true => 0
  | none => 1
  | some false => 2

/-- Modelled from the specification wording of the fallback path (walk
the sorted pool, skipping duplicate ids, accepting up to `amount`
unique entries): an early-stopping walk that accepts a pool item when
its mbid is new and stops once `amount` entries are accepted.  Used to
compare the code against the claimed whole-pool walk. -/
def walkAcceptUnique (userId sourceItemMBID : String) (amount : Int) (idStart now : Nat) :
    List PoolItem → List String → Nat → List RecommendationDoc
  | [], _, _ => []
  | it :: rest, seen, cnt =>
    if (cnt : Int) ≥ amount then []
    else if it.mbid ∈ seen then
      walkAcceptUnique userId sourceItemMBID amount idStart now rest seen cnt
    else
      { _id := idStart + cnt, userId := userId, item1 := sourceItemMBID,
        item2 := it.mbid, itemName := it.name,
        reasoning := fallbackReasoning it.type,
        confidence := it.score / 100, feedback := none, createdAt := now } ::
      walkAcceptUnique userId sourceItemMBID amount idStart now rest (it.mbid :: seen) (cnt + 1)

/-- Modelled from the spec: the fallback path as the claim describes it,
walking the WHOLE score-descending sorted pool (after removing the
source item and excluded items) with no `slice(0, amount * 2)`
truncation, accepting up to `amount` unique entries. -/
def generateFallbackSpec (userId sourceItemMBID : String) (amount : Int)
    (similarArtists similarRecordings similarReleaseGroups : List SimilarInput)
    (userFeedbackHistory : List FeedbackEntry) (idStart now : Nat) :
    List RecommendationDoc :=
  let allSimilarItems :=
    flattenSimilarItems similarArtists similarRecordings similarReleaseGroups
  let existingFeedbackItems := userFeedbackHistory.map (·.item)
  let pool := (List.insertionSort scoreGE allSimilarItems).filter
    (fun it => ¬ it.mbid = sourceItemMBID ∧ ¬ it.mbid ∈ existingFeedbackItems)
  walkAcceptUnique userId sourceItemMBID amount idStart now pool [] 0

/-- Deduplication by neighbor id keeping the first occurrence of each
id, used to express the rank-first-then-deduplicate selector of the
specification. -/
def dedupKeepFirst : List Candidate → List String → List Candidate
  | [], _ => []
  | c :: rest, seen =>
    if c.recommendedItem ∈ seen then dedupKeepFirst rest seen
    else c :: dedupKeepFirst rest (c.recommendedItem :: seen)

/-- Modelled from the spec: the selector candidate pipeline as the claim
describes it — compute every incident candidate, drop self-edges, RANK
FIRST, then deduplicate keeping the top-ranked occurrence per neighbor.
Used to compare the code (which deduplicates in storage order before
ranking) against the claimed order of operations. -/
def selectCandidatesSpec (userId item : String) (state : RecState) : List Candidate :=
  dedupKeepFirst (List.insertionSort candLE
    (((incidentRecords userId item state).map (candidateOfRecord item)).filter
      (fun c => ¬ c.recommendedItem = item))) []

/-- A reachable two-user-action scenario state: the user first receives
the recommendation `B -> A` (so the anchor `A` is stored in the
recommended-item role), then receives `C -> B` and marks `B` negative.
Built entirely through the embedded operations. -/
def c2State : RecState :=
  (provideFeedback "u1" "B" false
    ((generate (fun _ => none) .noModel
      ⟨"u1", "C", 1, ⟨some "C"⟩, [⟨"B", "NameB", 80⟩], [], []⟩
      ((generate (fun _ => none) .noModel
        ⟨"u1", "B", 1, ⟨some "B"⟩, [⟨"A", "NameA", 90⟩], [], []⟩ [] 0 0).2) 1 1).2) 2).2

/-! ### Properties of the comparator order -/

/-- The comparator order coincides with the lexicographic order on
(feedback tier, confidence descending, creation time descending). -/
theorem candLE_iff (a b : Candidate) :
    candLE a b ↔ (tierOf a.feedback < tierOf b.feedback ∨
      (tierOf a.feedback = tierOf b.feedback ∧
        (b.confidence < a.confidence ∨
          (a.confidence = b.confidence ∧ b.createdAt ≤ a.createdAt)))) := by
  have hconf : (if a.confidence = b.confidence then (b.createdAt : ℚ) - (a.createdAt : ℚ)
      else b.confidence - a.confidence) ≤ 0 ↔
      (b.confidence < a.confidence ∨
        (a.confidence = b.confidence ∧ b.createdAt ≤ a.createdAt)) := by
    by_cases hc : a.confidence = b.confidence
    · simp [hc, sub_nonpos, Nat.cast_le]
    · rw [if_neg hc, sub_nonpos]
      simp only [hc, false_and, or_false]
      exact ⟨fun h => h.lt_of_ne fun e => hc e.symm, le_of_lt⟩
  rcases ha : a.feedback with _ | (_ | _) <;> rcases hb : b.feedback with _ | (_ | _) <;>
    simp [candLE, cmpCand, tierOf, ha, hb, hconf]

theorem candLE_total (a b : Candidate) : candLE a b ∨ candLE b a := by
  rw [candLE_iff, candLE_iff]
  rcases lt_trichotomy (tierOf a.feedback) (tierOf b.feedback) with h | h | h
  · exact Or.inl (Or.inl h)
  · rcases lt_trichotomy a.confidence b.confidence with hc | hc | hc
    · exact Or.inr (Or.inr ⟨h.symm, Or.inl hc⟩)
    · rcases Nat.le_total a.createdAt b.createdAt with ht | ht
      · exact Or.inr (Or.inr ⟨h.symm, Or.inr ⟨hc.symm, ht⟩⟩)
      · exact Or.inl (Or.inr ⟨h, Or.inr ⟨hc, ht⟩⟩)
    · exact Or.inl (Or.inr ⟨h, Or.inl hc⟩)
  · exact Or.inr (Or.inl h)

theorem candLE_trans (a b c : Candidate) (h1 : candLE a b) (h2 : candLE b c) :
    candLE a c := by
  rw [candLE_iff] at h1 h2 ⊢
  rcases h1 with h1 | ⟨h1e, h1r⟩
  · rcases h2 with h2 | ⟨h2e, _⟩
    · exact Or.inl (h1.trans h2)
    · exact Or.inl (h2e ▸ h1)
  · rcases h2 with h2 | ⟨h2e, h2r⟩
    · exact Or.inl (h1e ▸ h2)
    · refine Or.inr ⟨h1e.trans h2e, ?_⟩
      rcases h1r with hc | ⟨hce, hte⟩
      · rcases h2r with hc' | ⟨hce', _⟩
        · exact Or.inl (hc'.trans hc)
        · exact Or.inl (hce' ▸ hc)
      · rcases h2r with hc' | ⟨hce', hte'⟩
        · exact Or.inl (hce ▸ hc')
        · exact Or.inr ⟨hce.trans hce', hte'.trans hte⟩

instance : IsTotal Candidate candLE := ⟨candLE_total⟩

instance : IsTrans Candidate candLE := ⟨candLE_trans⟩

/-- A candidate placed (weakly) earlier by the comparator is in a
(weakly) earlier feedback tier: in particular positive feedback always
precedes unset feedback, regardless of confidence. -/
theorem candLE_tier_le {a b : Candidate} (h : candLE a b) :
    tierOf a.feedback ≤ tierOf b.feedback := by
  rw [candLE_iff] at h
  rcases h with h | ⟨h, _⟩
  · exact le_of_lt h
  · exact le_of_eq h

/-! ### Loop lemmas -/

/-- The emission loop emits the projections of the first
`amount - count` non-negative candidates, in order. -/
theorem emitLoop_eq (amount : Int) :
    ∀ (l : List Candidate) (count : Nat),
      emitLoop amount count l =
        ((l.filter fun c => ¬ c.feedback = some false).take
          (amount - count).toNat).map projCandidate
  | [], count => by simp [emitLoop]
  | c :: rest, count => by
    by_cases hstop : (count : Int) ≥ amount
    · have h0 : (amount - (count : Int)).toNat = 0 := by omega
      simp [emitLoop, hstop, h0]
    · have hpos : (amount - (count : Int)).toNat =
        (amount - ((count + 1 : Nat) : Int)).toNat + 1 := by push_cast; omega
      by_cases hf : c.feedback = some false
      · simp [emitLoop, hstop, hf, emitLoop_eq amount rest count]
      · simp [emitLoop, hstop, hf, hpos, emitLoop_eq amount rest (count + 1)]

/-- Every record produced by the fallback acceptance loop carries the
caller, the source item, no feedback, the call timestamp, and the mbid
and normalized score of some pool item. -/
theorem pickUniqueLoop_mem (userId src : String) (amount : Int) (idStart now : Nat)
    (l : List PoolItem) :
    ∀ (seen : List String) (cnt : Nat) (r : RecommendationDoc),
      r ∈ pickUniqueLoop userId src amount idStart now l seen cnt →
      r.userId = userId ∧ r.item1 = src ∧ r.feedback = none ∧ r.createdAt = now ∧
        ∃ it ∈ l, r.item2 = it.mbid ∧ r.confidence = it.score / 100 := by
  induction l with
  | nil => intro seen cnt r hr; simp [pickUniqueLoop] at hr
  | cons it rest ih =>
    intro seen cnt r hr
    simp only [pickUniqueLoop] at hr
    split at hr
    · rcases List.mem_cons.mp hr with h | h
      · subst h
        exact ⟨rfl, rfl, rfl, rfl, it, List.mem_cons_self _ _, rfl, rfl⟩
      · obtain ⟨h1, h2, h3, h4, it', hit', h5, h6⟩ := ih _ _ _ h
        exact ⟨h1, h2, h3, h4, it', List.mem_cons_of_mem _ hit', h5, h6⟩
    · obtain ⟨h1, h2, h3, h4, it', hit', h5, h6⟩ := ih _ _ _ hr
      exact ⟨h1, h2, h3, h4, it', List.mem_cons_of_mem _ hit', h5, h6⟩

/-- The fallback acceptance loop accepts at most `amount - cnt` items. -/
theorem pickUniqueLoop_length (userId src : String) (amount : Int) (idStart now : Nat)
    (l : List PoolItem) :
    ∀ (seen : List String) (cnt : Nat),
      (pickUniqueLoop userId src amount idStart now l seen cnt).length ≤
        (amount - cnt).toNat := by
  induction l with
  | nil => intro seen cnt; simp [pickUniqueLoop]
  | cons it rest ih =>
    intro seen cnt
    simp only [pickUniqueLoop]
    split
    case isTrue hcond =>
      have hrec := ih (it.mbid :: seen) (cnt + 1)
      have hlt : (cnt : Int) < amount := hcond.1
      simp only [List.length_cons]
      omega
    case isFalse hcond =>
      exact le_trans (ih seen cnt) (by omega)

/-- Every record produced by the model-path acceptance loop carries the
caller, the source item, no feedback, the call timestamp, a recommended
item different from the source and outside the exclusion set, and a
confidence clamped into the unit interval. -/
theorem modelLoop_mem (userId src : String) (amount : Int) (excl : List String)
    (idStart now : Nat) (l : List LLMRecommendationOutput) :
    ∀ (cnt : Nat) (r : RecommendationDoc),
      r ∈ modelLoop userId src amount excl idStart now l cnt →
      r.userId = userId ∧ r.item1 = src ∧ r.feedback = none ∧ r.createdAt = now ∧
        ¬ r.item2 = src ∧ ¬ r.item2 ∈ excl ∧ 0 ≤ r.confidence ∧ r.confidence ≤ 1 := by
  induction l with
  | nil => intro cnt r hr; simp [modelLoop] at hr
  | cons e rest ih =>
    intro cnt r hr
    simp only [modelLoop] at hr
    split at hr
    · simp at hr
    · split at hr
      case isTrue hcond =>
        rcases List.mem_cons.mp hr with h | h
        · subst h
          exact ⟨rfl, rfl, rfl, rfl, hcond.2.1, hcond.2.2,
            le_max_left 0 _, max_le (by norm_num) (min_le_left 1 _)⟩
        · exact ih _ _ h
      case isFalse hcond =>
        exact ih _ _ hr

/-- The model-path acceptance loop accepts at most `amount - cnt`
entries. -/
theorem modelLoop_length (userId src : String) (amount : Int) (excl : List String)
    (idStart now : Nat) (l : List LLMRecommendationOutput) :
    ∀ (cnt : Nat),
      (modelLoop userId src amount excl idStart now l cnt).length ≤
        (amount - cnt).toNat := by
  induction l with
  | nil => intro cnt; simp [modelLoop]
  | cons e rest ih =>
    intro cnt
    simp only [modelLoop]
    split
    case isTrue hcond => simp
    case isFalse hcond =>
      split
      case isTrue hacc =>
        have hrec := ih (cnt + 1)
        simp only [List.length_cons]
        omega
      case isFalse hacc =>
        exact le_trans (ih cnt) (by omega)

/-- Every element of the flattened similarity pool takes its mbid and
score from one of the three input lists. -/
theorem flattenSimilarItems_mem (a b c : List SimilarInput) (it : PoolItem)
    (h : it ∈ flattenSimilarItems a b c) :
    ∃ s ∈ a ++ b ++ c, it.mbid = s.mbid ∧ it.score = s.score := by
  simp only [flattenSimilarItems, List.mem_append, List.mem_map] at h
  rcases h with (⟨s, hs, he⟩ | ⟨s, hs, he⟩) | ⟨s, hs, he⟩ <;>
    exact ⟨s, by simp [hs], by simp [← he]⟩

/-- Every candidate produced by the deduplicating candidate loop is the
candidate of the first record (in list order) whose neighbor is its
recommended item; its neighbor is neither the anchor nor in `seen`. -/
theorem buildCandidates_mem (item : String) (l : List RecommendationDoc) :
    ∀ (seen : List String) (c : Candidate), c ∈ buildCandidates item l seen →
      ¬ c.recommendedItem ∈ seen ∧ ¬ c.recommendedItem = item ∧
      ∃ pre r post, l = pre ++ r :: post ∧ candidateOfRecord item r = c ∧
        ∀ r' ∈ pre, ¬ (candidateOfRecord item r').recommendedItem = c.recommendedItem := by
  induction l with
  | nil => intro seen c hc; simp [buildCandidates] at hc
  | cons r rest ih =>
    intro seen c hc
    simp only [buildCandidates] at hc
    split at hc
    case isTrue hskip =>
      obtain ⟨hseen, hitem, pre, r', post, hsplit, hcand, hfirst⟩ := ih _ _ hc
      refine ⟨hseen, hitem, r :: pre, r', post, by simp [hsplit], hcand, ?_⟩
      intro r'' hr''
      rcases List.mem_cons.mp hr'' with h | h
      · subst h
        rcases hskip with h | h
        · intro he; exact hitem (he ▸ h)
        · intro he; exact hseen (he ▸ h)
      · exact hfirst r'' h
    case isFalse hkeep =>
      rcases List.mem_cons.mp hc with h | h
      · subst h
        push_neg at hkeep
        exact ⟨hkeep.2, hkeep.1, [], r, rest, rfl, rfl, by simp⟩
      · obtain ⟨hseen, hitem, pre, r', post, hsplit, hcand, hfirst⟩ := ih _ _ h
        have hne : ¬ (candidateOfRecord item r).recommendedItem = c.recommendedItem := by
          intro he
          exact hseen (by simp [← he])
        refine ⟨fun hs => hseen (List.mem_cons_of_mem _ hs), hitem,
          r :: pre, r', post, by simp [hsplit], hcand, ?_⟩
        intro r'' hr''
        rcases List.mem_cons.mp hr'' with h' | h'
        · subst h'; exact hne
        · exact hfirst r'' h'

/-- The fallback `forEach` never accepts anything once the count has
reached `amount`. -/
theorem pickUniqueLoop_stop (userId src : String) (amount : Int) (idStart now : Nat)
    (l : List PoolItem) :
    ∀ (seen : List String) (cnt : Nat), (cnt : Int) ≥ amount →
      pickUniqueLoop userId src amount idStart now l seen cnt = [] := by
  induction l with
  | nil => intro seen cnt _; simp [pickUniqueLoop]
  | cons it rest ih =>
    intro seen cnt hstop
    have hcond : ¬ ((cnt : Int) < amount ∧ ¬ it.mbid ∈ seen) := by
      intro h; omega
    simp [pickUniqueLoop, hcond, ih seen cnt hstop]

/-- The fallback `forEach` with its count-and-membership guard is
extensionally the early-stopping unique-acceptance walk. -/
theorem pickUniqueLoop_eq_walk (userId src : String) (amount : Int) (idStart now : Nat)
    (l : List PoolItem) :
    ∀ (seen : List String) (cnt : Nat),
      pickUniqueLoop userId src amount idStart now l seen cnt =
        walkAcceptUnique userId src amount idStart now l seen cnt := by
  induction l with
  | nil => intro seen cnt; simp [pickUniqueLoop, walkAcceptUnique]
  | cons it rest ih =>
    intro seen cnt
    simp only [pickUniqueLoop, walkAcceptUnique]
    by_cases hstop : (cnt : Int) ≥ amount
    · have hcond : ¬ ((cnt : Int) < amount ∧ ¬ it.mbid ∈ seen) := by
        intro h; omega
      simp [hcond, hstop, pickUniqueLoop_stop userId src amount idStart now rest seen cnt hstop]
    · by_cases hseen : it.mbid ∈ seen
      · have hcond : ¬ ((cnt : Int) < amount ∧ ¬ it.mbid ∈ seen) := by
          intro h; exact h.2 hseen
        simp [hcond, hstop, hseen, ih seen cnt]
      · have hcond : (cnt : Int) < amount ∧ ¬ it.mbid ∈ seen := ⟨by omega, hseen⟩
        simp [hcond, hstop, hseen, ih (it.mbid :: seen) (cnt + 1)]

/-- Every record produced by the fallback path carries the caller, the
source item as `item1`, no feedback, the call timestamp, a recommended
item different from the source and outside the feedback history, and
the normalized score of some input similarity candidate. -/
theorem generateFallbackRecommendations_mem (userId src : String) (amount : Int)
    (a b c : List SimilarInput) (hist : List FeedbackEntry) (idStart now : Nat)
    (r : RecommendationDoc)
    (hr : r ∈ generateFallbackRecommendations userId src amount a b c hist idStart now) :
    r.userId = userId ∧ r.item1 = src ∧ r.feedback = none ∧ r.createdAt = now ∧
      ¬ r.item2 = src ∧ ¬ r.item2 ∈ hist.map (·.item) ∧
      ∃ s ∈ a ++ b ++ c, r.item2 = s.mbid ∧ r.confidence = s.score / 100 := by
  unfold generateFallbackRecommendations at hr
  obtain ⟨h1, h2, h3, h4, it, hit, h5, h6⟩ :=
    pickUniqueLoop_mem _ _ _ _ _ _ _ _ _ hr
  have hfil := List.mem_of_mem_take hit
  rw [List.mem_filter] at hfil
  obtain ⟨hsort, hcond⟩ := hfil
  have hcond' : ¬ it.mbid = src ∧ ¬ it.mbid ∈ hist.map (·.item) := by
    simpa using hcond
  have hfl : it ∈ flattenSimilarItems a b c := by simpa using hsort
  obtain ⟨s, hs, hmb, hsc⟩ := flattenSimilarItems_mem _ _ _ _ hfl
  exact ⟨h1, h2, h3, h4, by rw [h5]; exact hcond'.1, by rw [h5]; exact hcond'.2,
    s, hs, by rw [h5, hmb], by rw [h6, hsc]⟩

/-- The fallback path returns at most `amount` records. -/
theorem generateFallbackRecommendations_length (userId src : String) (amount : Int)
    (a b c : List SimilarInput) (hist : List FeedbackEntry) (idStart now : Nat) :
    (generateFallbackRecommendations userId src amount a b c hist idStart now).length ≤
      amount.toNat := by
  unfold generateFallbackRecommendations
  have h := pickUniqueLoop_length userId src amount idStart now
    (((List.insertionSort scoreGE (flattenSimilarItems a b c)).filter
      (fun it => ¬ it.mbid = src ∧ ¬ it.mbid ∈ hist.map (·.item))).take
        (Int.toNat (amount * 2))) [] 0
  simpa using h

/-- The item ids of the feedback history projection are exactly the
exclusion set `feedbackHistoryItems`. -/
theorem feedbackHistoryList_items (state : RecState) (userId : String) :
    (feedbackHistoryList state userId).map (·.item) =
      feedbackHistoryItems state userId := by
  simp only [feedbackHistoryList, feedbackHistoryItems, List.map_map]
  rfl

/-- An update that matches no record leaves the collection unchanged. -/
theorem map_feedbackUpdate_id (userId recommendedItem : String) (fb : Bool) (now : Nat)
    (state : RecState)
    (h : ∀ r ∈ state, ¬ (r.userId = userId ∧ r.item2 = recommendedItem)) :
    state.map (fun r => if r.userId = userId ∧ r.item2 = recommendedItem then
      { r with feedback := some fb, createdAt := now } else r) = state := by
  induction state with
  | nil => rfl
  | cons r rest ih =>
    simp only [List.map_cons]
    rw [if_neg (h r (List.mem_cons_self _ _)),
      ih (fun r' hr' => h r' (List.mem_cons_of_mem _ hr'))]

/-! ### Claim theorems -/

/-- C8: `generate` rejects an empty `userId`, a missing source identity,
or a non-positive `amount` with a validation error, and in that case no
record is written and the stored state does not change. -/
theorem c8_generate_validation
    (jsonParse : String → Option (List LLMRecommendationOutput))
    (cfg : ModelConfig) (p : GenerateParams) (state : RecState) (idStart now : Nat)
    (h : p.userId = "" ∨ p.sourceItem = "" ∨ p.amount ≤ 0) :
    generate jsonParse cfg p state idStart now =
      (.error "Invalid user ID, source item or amount specified.", state) := by
  unfold generate
  rw [if_pos h]

/-- Witness for C8: a concrete rejected call (empty user id). -/
theorem c8_generate_validation_witness :
    (("" : String) = "" ∨ ("A" : String) = "" ∨ (3 : Int) ≤ 0) ∧
    generate (fun _ => none) .noModel ⟨"", "A", 3, ⟨some "A"⟩, [], [], []⟩ [] 0 0 =
      (.error "Invalid user ID, source item or amount specified.", []) :=
  ⟨Or.inl rfl, c8_generate_validation (fun _ => none) .noModel
    ⟨"", "A", 3, ⟨some "A"⟩, [], [], []⟩ [] 0 0 (Or.inl rfl)⟩

/-- C6: the selector accepts only `(userId, item, amount)` — it has no
`ignore` parameter at all, although the repository API documentation
specifies one — so for a stored record `(u1, A → B)` the call returns
`B` no matter what ignore set the caller intended: with `S = ⟮B⟯` the
returned list contains an element of `S`. -/
theorem c6_ignore_not_implemented :
    getRecommendations "u1" "A" 5
      [⟨0, "u1", "A", "B", "NameB", "x", 9/10, none, 0⟩] =
      .ok [⟨"B", "NameB", "x", 9/10⟩] := by
  norm_num +decide [getRecommendations, selectCandidates, incidentRecords,
    buildCandidates, candidateOfRecord, emitLoop, projCandidate,
    List.insertionSort, List.orderedInsert]

/-- C7: `provideFeedback` updates every stored record for the
`(userId, recommendedItem)` pair regardless of its source item, setting
the feedback value and refreshing `createdAt`, and it fails exactly
when no record matches that pair. -/
theorem c7_provideFeedback_updates_all (userId recommendedItem : String) (fb : Bool)
    (state : RecState) (now : Nat)
    (hu : ¬ userId = "") (hi : ¬ recommendedItem = "") :
    ((provideFeedback userId recommendedItem fb state now).1 = .ok () ↔
      ∃ r ∈ state, r.userId = userId ∧ r.item2 = recommendedItem) ∧
    (provideFeedback userId recommendedItem fb state now).2 =
      state.map (fun r =>
        if r.userId = userId ∧ r.item2 = recommendedItem then
          { r with feedback := some fb, createdAt := now } else r) ∧
    ((∀ r ∈ state, ¬ (r.userId = userId ∧ r.item2 = recommendedItem)) →
      (provideFeedback userId recommendedItem fb state now).2 = state) := by
  have hval : ¬ (userId = "" ∨ recommendedItem = "") := by tauto
  unfold provideFeedback
  rw [if_neg hval]
  by_cases hm :
      (state.filter fun r => r.userId = userId ∧ r.item2 = recommendedItem).length = 0
  · have hnil := List.length_eq_zero.mp hm
    have hno : ∀ r ∈ state, ¬ (r.userId = userId ∧ r.item2 = recommendedItem) := by
      intro r hr hmatch
      have hmem : r ∈ state.filter
          (fun r => r.userId = userId ∧ r.item2 = recommendedItem) :=
        List.mem_filter_of_mem hr (by simpa using hmatch)
      rw [hnil] at hmem
      simp at hmem
    rw [if_pos hm]
    refine ⟨?_, rfl, fun _ => map_feedbackUpdate_id userId recommendedItem fb now state hno⟩
    constructor
    · intro hok; simp at hok
    · rintro ⟨r, hr, hmatch⟩; exact absurd hmatch (hno r hr)
  · rw [if_neg hm]
    refine ⟨?_, rfl, fun hno => map_feedbackUpdate_id userId recommendedItem fb now state hno⟩
    constructor
    · intro _
      have hne : state.filter
          (fun r => r.userId = userId ∧ r.item2 = recommendedItem) ≠ [] := by
        intro hnil; exact hm (by rw [hnil]; rfl)
      obtain ⟨r, hr⟩ := List.exists_mem_of_ne_nil _ hne
      have hmf := List.mem_filter.mp hr
      exact ⟨r, hmf.1, by simpa using hmf.2⟩
    · intro _; rfl

/-- Witness for C7: a matching pair exists, the call succeeds. -/
theorem c7_provideFeedback_updates_all_witness :
    (¬ ("u1" : String) = "") ∧ (¬ ("B" : String) = "") ∧
    ((provideFeedback "u1" "B" true
        [⟨0, "u1", "A", "B", "n", "x", 1, none, 5⟩] 7).1 = .ok () ↔
      ∃ r ∈ [(⟨0, "u1", "A", "B", "n", "x", 1, none, 5⟩ : RecommendationDoc)],
        r.userId = "u1" ∧ r.item2 = "B") :=
  ⟨by decide, by decide,
    (c7_provideFeedback_updates_all "u1" "B" true
      [⟨0, "u1", "A", "B", "n", "x", 1, none, 5⟩] 7 (by decide) (by decide)).1⟩

/-- C9: the model-output parser accepts exactly two serializations — a
markdown-fenced JSON block (with a nonempty body) or the raw text — and
when a response parses as neither, `generate` reports the parse error,
attempts no fallback, and persists nothing: the state is returned
unchanged. -/
theorem c9_parse_failure_no_fallback
    (jsonParse : String → Option (List LLMRecommendationOutput)) (text : String)
    (p : GenerateParams) (state : RecState) (idStart now : Nat)
    (hvalid : ¬ (p.userId = "" ∨ p.sourceItem = "" ∨ p.amount ≤ 0))
    (hparse : parseJSONFromLLMResponse jsonParse text = none) :
    generate jsonParse (.withModel text) p state idStart now =
      (.error "Failed to parse LLM recommendations.", state) ∧
    (∀ (t : String) (v : List LLMRecommendationOutput),
      parseJSONFromLLMResponse jsonParse t = some v ↔
        ((∃ inner, extractFencedJSON t = some inner ∧ ¬ inner = "" ∧
            jsonParse inner = some v) ∨
          ((extractFencedJSON t = none ∨ extractFencedJSON t = some "") ∧
            jsonParse t = some v))) := by
  constructor
  · unfold generate
    rw [if_neg hvalid]
    simp [hparse]
  · intro t v
    unfold parseJSONFromLLMResponse
    rcases he : extractFencedJSON t with _ | inner
    · simp
    · by_cases hinner : inner = ""
      · subst hinner; simp
      · simp [hinner]

/-- Witness for C9: a response that is neither fenced nor raw JSON. -/
theorem c9_parse_failure_no_fallback_witness :
    (¬ (("u1" : String) = "" ∨ ("A" : String) = "" ∨ (1 : Int) ≤ 0)) ∧
    parseJSONFromLLMResponse (fun _ => none) "not json" = none ∧
    generate (fun _ => none) (.withModel "not json")
        ⟨"u1", "A", 1, ⟨some "A"⟩, [], [], []⟩ [] 0 0 =
      (.error "Failed to parse LLM recommendations.", []) :=
  ⟨by decide, by rfl,
    (c9_parse_failure_no_fallback (fun _ => none) "not json"
      ⟨"u1", "A", 1, ⟨some "A"⟩, [], [], []⟩ [] 0 0 (by decide) (by rfl)).1⟩

/-- C10: when no stored record of the user has the anchor in the source
role (`item1`) for a returned neighbor — i.e. the anchor matched only in
the recommended-item role (`item2`) — the returned entry for that
neighbor carries the empty string as display name, because the stored
`itemName` describes `item2` only. -/
theorem c10_item2_anchor_empty_name (userId item : String) (amount : Int)
    (state : RecState) (out : List ItemWithReasoning) (e : ItemWithReasoning)
    (h : getRecommendations userId item amount state = .ok out) (he : e ∈ out)
    (hrole : ∀ r ∈ state, ¬ (r.userId = userId ∧ r.item1 = item ∧ r.item2 = e.item)) :
    e.itemName = "" := by
  unfold getRecommendations at h
  by_cases hval : userId = "" ∨ item = "" ∨ amount ≤ 0
  · rw [if_pos hval] at h
    simp at h
  · rw [if_neg hval] at h
    have hout : emitLoop amount 0 (selectCandidates userId item state) = out := by
      simpa using h
    rw [emitLoop_eq] at hout
    rw [← hout] at he
    obtain ⟨c, hcmem, hce⟩ := List.mem_map.mp he
    have hsorted : c ∈ selectCandidates userId item state :=
      List.mem_of_mem_filter (List.mem_of_mem_take hcmem)
    have hbuilt : c ∈ buildCandidates item (incidentRecords userId item state) [] := by
      simpa [selectCandidates] using hsorted
    obtain ⟨_, hitem, pre, r, post, hsplit, hcand, _⟩ :=
      buildCandidates_mem item _ _ _ hbuilt
    have hrmem : r ∈ incidentRecords userId item state := by
      rw [hsplit]
      exact List.mem_append.mpr (Or.inr (List.mem_cons_self _ _))
    have hrstate := List.mem_filter.mp hrmem
    have hruser : r.userId = userId ∧ (r.item1 = item ∨ r.item2 = item) := by
      simpa using hrstate.2
    by_cases h1 : r.item1 = item
    · exfalso
      apply hrole r hrstate.1
      refine ⟨hruser.1, h1, ?_⟩
      have : c.recommendedItem = r.item2 := by
        rw [← hcand]; simp [candidateOfRecord, h1]
      rw [← hce]
      simp [projCandidate, ← this]
    · have hname : c.itemName = "" := by
        rw [← hcand]; simp [candidateOfRecord, h1]
      rw [← hce]
      simpa [projCandidate] using hname

/-- Witness for C10: a single record `(u1, B → A)`; selecting around the
anchor `A` returns the neighbor `B` with an empty display name. -/
theorem c10_item2_anchor_empty_name_witness :
    getRecommendations "u1" "A" 5
        [⟨0, "u1", "B", "A", "NameA", "x", 1, none, 0⟩] =
      .ok [⟨"B", "", "x", 1⟩] ∧
    (⟨"B", "", "x", 1⟩ : ItemWithReasoning).itemName = "" := by
  have hsel : getRecommendations "u1" "A" 5
      [⟨0, "u1", "B", "A", "NameA", "x", 1, none, 0⟩] =
      .ok [⟨"B", "", "x", 1⟩] := by
    norm_num +decide [getRecommendations, selectCandidates, incidentRecords,
      buildCandidates, candidateOfRecord, emitLoop, projCandidate,
      List.insertionSort, List.orderedInsert]
  refine ⟨hsel, ?_⟩
  exact c10_item2_anchor_empty_name "u1" "A" 5
    [⟨0, "u1", "B", "A", "NameA", "x", 1, none, 0⟩] [⟨"B", "", "x", 1⟩]
    ⟨"B", "", "x", 1⟩ hsel (List.mem_cons_self _ _) (by decide)

/-- Case analysis on a `generate` call: it either fails leaving the
state unchanged, or passes validation and appends exactly the records
produced by the path it took. -/
theorem generate_result (jsonParse : String → Option (List LLMRecommendationOutput))
    (cfg : ModelConfig) (p : GenerateParams) (state : RecState) (idStart now : Nat) :
    (∃ msg, generate jsonParse cfg p state idStart now = (.error msg, state)) ∨
    (¬ (p.userId = "" ∨ p.sourceItem = "" ∨ p.amount ≤ 0) ∧
     ∃ recs, generate jsonParse cfg p state idStart now = (.ok recs, state ++ recs) ∧
       ((cfg = .noModel ∧
         recs = generateFallbackRecommendations p.userId
           (authoritativeSource p.sourceItemMetadata p.sourceItem) p.amount
           p.similarArtists p.similarRecordings p.similarReleaseGroups
           (feedbackHistoryList state p.userId) idStart now) ∨
        (∃ text parsed, cfg = .withModel text ∧
          parseJSONFromLLMResponse jsonParse text = some parsed ∧
          recs = modelLoop p.userId
            (authoritativeSource p.sourceItemMetadata p.sourceItem) p.amount
            (feedbackHistoryItems state p.userId) idStart now parsed 0))) := by
  by_cases hval : p.userId = "" ∨ p.sourceItem = "" ∨ p.amount ≤ 0
  · left
    exact ⟨_, by unfold generate; rw [if_pos hval]⟩
  · have hu : ¬ p.userId = "" := fun h => hval (Or.inl h)
    cases cfg with
    | noModel =>
      right
      refine ⟨hval, _, ?_, Or.inl ⟨rfl, rfl⟩⟩
      unfold generate
      rw [if_neg hval]
      simp [getFeedbackHistory, hu]
    | withModel text =>
      cases hp : parseJSONFromLLMResponse jsonParse text with
      | none =>
        left
        refine ⟨"Failed to parse LLM recommendations.", ?_⟩
        unfold generate
        rw [if_neg hval]
        simp [hp]
      | some parsed =>
        right
        refine ⟨hval, _, ?_, Or.inr ⟨text, parsed, rfl, hp, rfl⟩⟩
        unfold generate
        rw [if_neg hval]
        simp [getFeedbackHistory, hu, hp, feedbackHistoryList_items]

/-- C3: every successful `generate` call (either path) returns at most
`amount` records, and no returned recommended item equals the
authoritative source item or appears in the feedback history (either
tier) of the caller at call time. -/
theorem c3_generate_batch_bounds
    (jsonParse : String → Option (List LLMRecommendationOutput))
    (cfg : ModelConfig) (p : GenerateParams) (state : RecState) (idStart now : Nat)
    (recs : List RecommendationDoc)
    (h : (generate jsonParse cfg p state idStart now).1 = .ok recs) :
    (recs.length : Int) ≤ p.amount ∧
    ∀ r ∈ recs, ¬ r.item2 = authoritativeSource p.sourceItemMetadata p.sourceItem ∧
      ¬ r.item2 ∈ feedbackHistoryItems state p.userId := by
  rcases generate_result jsonParse cfg p state idStart now with
    ⟨msg, heq⟩ | ⟨hval, recs', heq, hpath⟩
  · rw [heq] at h
    simp at h
  · rw [heq] at h
    have hrr : recs' = recs := by simpa using h
    subst hrr
    rcases hpath with ⟨_, hrecs⟩ | ⟨text, parsed, _, hp, hrecs⟩
    · constructor
      · have hlen := generateFallbackRecommendations_length p.userId
          (authoritativeSource p.sourceItemMetadata p.sourceItem) p.amount
          p.similarArtists p.similarRecordings p.similarReleaseGroups
          (feedbackHistoryList state p.userId) idStart now
        rw [← hrecs] at hlen
        omega
      · intro r hr
        rw [hrecs] at hr
        obtain ⟨_, _, _, _, h5, h6, _⟩ :=
          generateFallbackRecommendations_mem _ _ _ _ _ _ _ _ _ r hr
        rw [feedbackHistoryList_items] at h6
        exact ⟨h5, h6⟩
    · constructor
      · have hlen := modelLoop_length p.userId
          (authoritativeSource p.sourceItemMetadata p.sourceItem) p.amount
          (feedbackHistoryItems state p.userId) idStart now parsed 0
        rw [← hrecs] at hlen
        omega
      · intro r hr
        rw [hrecs] at hr
        obtain ⟨_, _, _, _, h5, h6, _⟩ := modelLoop_mem _ _ _ _ _ _ _ _ r hr
        exact ⟨h5, h6⟩

/-- Witness for C3: a successful concrete fallback call returning one
record for an `amount` of two. -/
theorem c3_generate_batch_bounds_witness :
    ((generate (fun _ => none) .noModel
        ⟨"u1", "A", 2, ⟨some "A"⟩, [⟨"B", "b", 90⟩], [], []⟩ [] 0 0).1 =
      .ok [⟨0, "u1", "A", "B", "b", fallbackReasoning "artist", 9/10, none, 0⟩]) ∧
    (([⟨0, "u1", "A", "B", "b", fallbackReasoning "artist", 9/10, none, 0⟩] :
        List RecommendationDoc).length : Int) ≤ 2 := by
  have hgen : (generate (fun _ => none) .noModel
      ⟨"u1", "A", 2, ⟨some "A"⟩, [⟨"B", "b", 90⟩], [], []⟩ [] 0 0).1 =
      .ok [⟨0, "u1", "A", "B", "b", fallbackReasoning "artist", 9/10, none, 0⟩] := by
    norm_num +decide [generate, authoritativeSource, getFeedbackHistory,
      feedbackHistoryList, generateFallbackRecommendations, flattenSimilarItems,
      pickUniqueLoop, scoreGE, List.insertionSort, List.orderedInsert]
  exact ⟨hgen, (c3_generate_batch_bounds (fun _ => none) .noModel
    ⟨"u1", "A", 2, ⟨some "A"⟩, [⟨"B", "b", 90⟩], [], []⟩ [] 0 0 _ hgen).1⟩

/-- Counterexample to C1 as stated: the fallback path does not clamp
`score / 100`, so a similarity score above the assumed 0–100 scale
(here 150) persists a record with confidence `3/2 > 1`. -/
theorem c1_counterexample :
    ((generate (fun _ => none) .noModel
        ⟨"u1", "A", 1, ⟨some "A"⟩, [⟨"B", "b", 150⟩], [], []⟩ [] 0 0).2).map
      (·.confidence) = [3/2] ∧ ¬ ((3/2 : ℚ) ≤ 1) := by
  constructor
  · norm_num +decide [generate, authoritativeSource, getFeedbackHistory,
      feedbackHistoryList, generateFallbackRecommendations, flattenSimilarItems,
      pickUniqueLoop, scoreGE, List.insertionSort, List.orderedInsert]
  · norm_num

/-- C1 (amended): provided every supplied similarity score lies in the
assumed 0–100 input scale, every record persisted by either generation
path satisfies the invariant (confidence in `[0, 1]` and recommended
item different from source item), and `provideFeedback` and
`clearRecommendations` preserve it on every stored record. -/
theorem c1_invariant_preserved
    (jsonParse : String → Option (List LLMRecommendationOutput))
    (cfg : ModelConfig) (p : GenerateParams) (state : RecState) (idStart now : Nat)
    (hscores : ∀ s ∈ p.similarArtists ++ p.similarRecordings ++ p.similarReleaseGroups,
      0 ≤ s.score ∧ s.score ≤ 100)
    (hstate : ∀ r ∈ state, recordInvariant r) :
    (∀ r ∈ (generate jsonParse cfg p state idStart now).2, recordInvariant r) ∧
    (∀ (u i : String) (fb : Bool) (t : Nat),
      ∀ r ∈ (provideFeedback u i fb state t).2, recordInvariant r) ∧
    (∀ u, ∀ r ∈ clearRecommendations u state, recordInvariant r) := by
  refine ⟨?_, ?_, ?_⟩
  · rcases generate_result jsonParse cfg p state idStart now with
      ⟨msg, heq⟩ | ⟨hval, recs, heq, hpath⟩
    · rw [heq]
      exact hstate
    · rw [heq]
      intro r hr
      rcases List.mem_append.mp hr with h | h
      · exact hstate r h
      · rcases hpath with ⟨_, hrecs⟩ | ⟨text, parsed, _, hp, hrecs⟩
        · rw [hrecs] at h
          obtain ⟨_, h2, _, _, h5, _, s, hs, h7, h8⟩ :=
            generateFallbackRecommendations_mem _ _ _ _ _ _ _ _ _ r h
          obtain ⟨hs0, hs100⟩ := hscores s hs
          refine ⟨?_, ?_, ?_⟩
          · rw [h8]
            exact div_nonneg hs0 (by norm_num)
          · rw [h8]
            rw [div_le_one (by norm_num)]
            linarith
          · rw [h2]
            exact h5
        · rw [hrecs] at h
          obtain ⟨_, h2, _, _, h5, _, h7, h8⟩ := modelLoop_mem _ _ _ _ _ _ _ _ r h
          refine ⟨h7, h8, ?_⟩
          rw [h2]
          exact h5
  · intro u i fb t r hr
    unfold provideFeedback at hr
    by_cases hv : u = "" ∨ i = ""
    · rw [if_pos hv] at hr
      exact hstate r hr
    · rw [if_neg hv] at hr
      have hr2 : r ∈ state.map (fun r =>
          if r.userId = u ∧ r.item2 = i then
            { r with feedback := some fb, createdAt := t } else r) := by
        by_cases hc : (state.filter fun r => r.userId = u ∧ r.item2 = i).length = 0
        · rw [if_pos hc] at hr; exact hr
        · rw [if_neg hc] at hr; exact hr
      obtain ⟨r', hr', hmap⟩ := List.mem_map.mp hr2
      have hinv := hstate r' hr'
      by_cases hcond : r'.userId = u ∧ r'.item2 = i
      · rw [if_pos hcond] at hmap
        rw [← hmap]
        exact hinv
      · rw [if_neg hcond] at hmap
        rw [← hmap]
        exact hinv
  · intro u r hr
    cases u with
    | none => simp [clearRecommendations] at hr
    | some v =>
      simp only [clearRecommendations] at hr
      by_cases hv : v = ""
      · rw [if_pos hv] at hr
        simp at hr
      · rw [if_neg hv] at hr
        exact hstate r (List.mem_of_mem_filter hr)

/-- Witness for C1 (amended): concrete scores inside the 0–100 scale
and an empty starting state. -/
theorem c1_invariant_preserved_witness :
    (∀ s ∈ (⟨"u1", "A", 1, ⟨some "A"⟩, [⟨"B", "b", 90⟩], [], []⟩ :
        GenerateParams).similarArtists ++ [] ++ [], (0 : ℚ) ≤ s.score ∧ s.score ≤ 100) ∧
    (∀ r ∈ (generate (fun _ => none) .noModel
        ⟨"u1", "A", 1, ⟨some "A"⟩, [⟨"B", "b", 90⟩], [], []⟩ [] 0 0).2,
      recordInvariant r) := by
  have hscores : ∀ s ∈ (⟨"u1", "A", 1, ⟨some "A"⟩, [⟨"B", "b", 90⟩], [], []⟩ :
      GenerateParams).similarArtists ++ [] ++ [], (0 : ℚ) ≤ s.score ∧ s.score ≤ 100 := by
    intro s hs
    simp at hs
    rw [hs]
    norm_num
  exact ⟨hscores, (c1_invariant_preserved (fun _ => none) .noModel
    ⟨"u1", "A", 1, ⟨some "A"⟩, [⟨"B", "b", 90⟩], [], []⟩ [] 0 0 hscores
    (by intro r hr; simp at hr)).1⟩

/-- Counterexample to C5 as stated: the code walks only the first
`amount * 2` entries of the filtered sorted pool (`slice(0, amount*2)`),
not the whole pool.  With amount 2 and pool
`[B:90, B:89, B:88, B:87, C:50]` the slice contains only copies of `B`,
so the call returns a single record although the claimed whole-pool walk
accepts the two unique entries `B` and `C`. -/
theorem c5_counterexample :
    ((generate (fun _ => none) .noModel
        ⟨"u1", "A", 2, ⟨some "A"⟩,
          [⟨"B", "b", 90⟩, ⟨"B", "b", 89⟩, ⟨"B", "b", 88⟩, ⟨"B", "b", 87⟩,
           ⟨"C", "c", 50⟩], [], []⟩ [] 0 0).2).map (·.item2) = ["B"] ∧
    (generateFallbackSpec "u1" "A" 2
        [⟨"B", "b", 90⟩, ⟨"B", "b", 89⟩, ⟨"B", "b", 88⟩, ⟨"B", "b", 87⟩,
         ⟨"C", "c", 50⟩] [] [] [] 0 0).map (·.item2) = ["B", "C"] ∧
    ¬ (["B"] : List String) = ["B", "C"] := by
  refine ⟨?_, ?_, by decide⟩
  · norm_num +decide [generate, authoritativeSource, getFeedbackHistory,
      feedbackHistoryList, generateFallbackRecommendations, flattenSimilarItems,
      pickUniqueLoop, scoreGE, List.insertionSort, List.orderedInsert]
  · norm_num +decide [generateFallbackSpec, walkAcceptUnique, flattenSimilarItems,
      scoreGE, List.insertionSort, List.orderedInsert]

/-- C5 (amended): the fallback path walks the FIRST `amount * 2` entries
of the score-descending sorted pool (after removing the source item and
excluded items), skipping duplicate ids and accepting up to `amount`
unique entries with confidence `score / 100`; the concrete scenario of
the claim holds: with no model, source `A`, similar artists
`[B: 90, C: 70]` and amount 2, the call persists and returns
`[(A → B, 0.9), (A → C, 0.7)]` in that order. -/
theorem c5_fallback_sliced_walk :
    (∀ (userId src : String) (amount : Int) (a b c : List SimilarInput)
        (hist : List FeedbackEntry) (idStart now : Nat),
      generateFallbackRecommendations userId src amount a b c hist idStart now =
        walkAcceptUnique userId src amount idStart now
          (((List.insertionSort scoreGE (flattenSimilarItems a b c)).filter
            (fun it => ¬ it.mbid = src ∧ ¬ it.mbid ∈ hist.map (·.item))).take
              (Int.toNat (amount * 2))) [] 0) ∧
    generate (fun _ => none) .noModel
        ⟨"u1", "A", 2, ⟨some "A"⟩, [⟨"B", "b", 90⟩, ⟨"C", "c", 70⟩], [], []⟩ [] 0 0 =
      (.ok [⟨0, "u1", "A", "B", "b", fallbackReasoning "artist", 9/10, none, 0⟩,
            ⟨1, "u1", "A", "C", "c", fallbackReasoning "artist", 7/10, none, 0⟩],
       [⟨0, "u1", "A", "B", "b", fallbackReasoning "artist", 9/10, none, 0⟩,
        ⟨1, "u1", "A", "C", "c", fallbackReasoning "artist", 7/10, none, 0⟩]) := by
  constructor
  · intro userId src amount a b c hist idStart now
    unfold generateFallbackRecommendations
    exact pickUniqueLoop_eq_walk userId src amount idStart now _ [] 0
  · norm_num +decide [generate, authoritativeSource, getFeedbackHistory,
      feedbackHistoryList, generateFallbackRecommendations, flattenSimilarItems,
      pickUniqueLoop, scoreGE, List.insertionSort, List.orderedInsert]

/-- Every emitted entry of a successful `getRecommendations` call is the
projection of a non-negative candidate built by the deduplicating
candidate loop. -/
theorem getRecommendations_out_mem (userId item : String) (amount : Int)
    (state : RecState) (out : List ItemWithReasoning) (e : ItemWithReasoning)
    (h : getRecommendations userId item amount state = .ok out) (he : e ∈ out) :
    ∃ c, projCandidate c = e ∧ ¬ c.feedback = some false ∧
      c ∈ buildCandidates item (incidentRecords userId item state) [] := by
  unfold getRecommendations at h
  by_cases hval : userId = "" ∨ item = "" ∨ amount ≤ 0
  · rw [if_pos hval] at h
    simp at h
  · rw [if_neg hval] at h
    have hout : emitLoop amount 0 (selectCandidates userId item state) = out := by
      simpa using h
    rw [emitLoop_eq] at hout
    rw [← hout] at he
    obtain ⟨c, hcmem, hce⟩ := List.mem_map.mp he
    have hcf := List.mem_filter.mp (List.mem_of_mem_take hcmem)
    refine ⟨c, hce, by simpa using hcf.2, ?_⟩
    simpa [selectCandidates] using hcf.1

/-- Counterexample to C2 as stated: in the reachable state `c2State`
the user `u1` has Negative feedback on `B` (entry `(B, false)` of the
feedback history), yet selecting around the anchor `A` returns `B` —
the record `B → A` carries the feedback about `A`, not about its
neighbor `B`, so the item-level exclusion fails. -/
theorem c2_counterexample :
    getRecommendations "u1" "A" 5 c2State =
      .ok [⟨"B", "", fallbackReasoning "artist", 9/10⟩] ∧
    (⟨"B", false, fallbackReasoning "artist", "C"⟩ : FeedbackEntry) ∈
      feedbackHistoryList c2State "u1" := by
  constructor
  · norm_num +decide [c2State, generate, authoritativeSource, getFeedbackHistory,
      feedbackHistoryList, generateFallbackRecommendations, flattenSimilarItems,
      pickUniqueLoop, scoreGE, provideFeedback, getRecommendations, selectCandidates,
      incidentRecords, buildCandidates, candidateOfRecord, emitLoop, projCandidate,
      List.insertionSort, List.orderedInsert]
  · norm_num +decide [c2State, generate, authoritativeSource, getFeedbackHistory,
      feedbackHistoryList, generateFallbackRecommendations, flattenSimilarItems,
      pickUniqueLoop, scoreGE, provideFeedback, List.insertionSort,
      List.orderedInsert]

/-- C2 (amended): every successful selection emits only entries whose
underlying stored record carries non-Negative feedback (the record
feedback field, which describes that record's recommended item), and
the emitted entries appear in the three-level ranking order of their
records — feedback tier, then confidence descending, then creation time
descending; in particular an entry from a Positive-feedback record
always precedes an entry from an Unset-feedback record. -/
theorem c2_ranked_emission (userId item : String) (amount : Int) (state : RecState)
    (out : List ItemWithReasoning)
    (h : getRecommendations userId item amount state = .ok out) :
    ∃ cs : List Candidate,
      out = cs.map projCandidate ∧
      cs.Sublist (selectCandidates userId item state) ∧
      (∀ c ∈ cs, ¬ c.feedback = some false) ∧
      List.Pairwise candLE cs ∧
      List.Pairwise (fun c1 c2 => tierOf c1.feedback ≤ tierOf c2.feedback) cs := by
  unfold getRecommendations at h
  by_cases hval : userId = "" ∨ item = "" ∨ amount ≤ 0
  · rw [if_pos hval] at h
    simp at h
  · rw [if_neg hval] at h
    have hout : emitLoop amount 0 (selectCandidates userId item state) = out := by
      simpa using h
    rw [emitLoop_eq] at hout
    refine ⟨((selectCandidates userId item state).filter
      (fun c => ¬ c.feedback = some false)).take (amount - ((0 : Nat) : Int)).toNat,
      hout.symm, ?_, ?_, ?_, ?_⟩
    · exact (List.take_sublist _ _).trans (List.filter_sublist _)
    · intro c hc
      have := List.mem_filter.mp (List.mem_of_mem_take hc)
      simpa using this.2
    · have hsorted : List.Pairwise candLE (selectCandidates userId item state) :=
        List.sorted_insertionSort candLE _
      exact hsorted.sublist ((List.take_sublist _ _).trans (List.filter_sublist _))
    · have hsorted : List.Pairwise candLE (selectCandidates userId item state) :=
        List.sorted_insertionSort candLE _
      exact (hsorted.sublist ((List.take_sublist _ _).trans
        (List.filter_sublist _))).imp (fun h => candLE_tier_le h)

/-- Witness for C2 (amended): a concrete successful selection. -/
theorem c2_ranked_emission_witness :
    (getRecommendations "u1" "A" 5 [⟨0, "u1", "A", "B", "NameB", "x", 1, none, 0⟩] =
      .ok [⟨"B", "NameB", "x", 1⟩]) ∧
    ∃ cs : List Candidate,
      [(⟨"B", "NameB", "x", 1⟩ : ItemWithReasoning)] = cs.map projCandidate ∧
      cs.Sublist (selectCandidates "u1" "A"
        [⟨0, "u1", "A", "B", "NameB", "x", 1, none, 0⟩]) ∧
      (∀ c ∈ cs, ¬ c.feedback = some false) ∧
      List.Pairwise candLE cs ∧
      List.Pairwise (fun c1 c2 => tierOf c1.feedback ≤ tierOf c2.feedback) cs := by
  have hsel : getRecommendations "u1" "A" 5
      [⟨0, "u1", "A", "B", "NameB", "x", 1, none, 0⟩] = .ok [⟨"B", "NameB", "x", 1⟩] := by
    norm_num +decide [getRecommendations, selectCandidates, incidentRecords,
      buildCandidates, candidateOfRecord, emitLoop, projCandidate,
      List.insertionSort, List.orderedInsert]
  exact ⟨hsel, c2_ranked_emission "u1" "A" 5 _ _ hsel⟩

/-- Counterexample to C4 as stated: with two stored records for the same
neighbor `B` — first (in storage order) with confidence `1/5`, second
with confidence `9/10` — the code emits the FIRST stored occurrence
(confidence `1/5`), while the rank-first-then-deduplicate pipeline of
the claim would keep the top-ranked occurrence (confidence `9/10`). -/
theorem c4_counterexample :
    getRecommendations "u1" "A" 5
        [⟨0, "u1", "A", "B", "b1", "x", 1/5, none, 1⟩,
         ⟨1, "u1", "A", "B", "b2", "y", 9/10, none, 2⟩] =
      .ok [⟨"B", "b1", "x", 1/5⟩] ∧
    emitLoop 5 0 (selectCandidatesSpec "u1" "A"
        [⟨0, "u1", "A", "B", "b1", "x", 1/5, none, 1⟩,
         ⟨1, "u1", "A", "B", "b2", "y", 9/10, none, 2⟩]) =
      [⟨"B", "b2", "y", 9/10⟩] ∧
    ¬ (⟨"B", "b1", "x", 1/5⟩ : ItemWithReasoning) = ⟨"B", "b2", "y", 9/10⟩ := by
  refine ⟨?_, ?_, by simp⟩
  · norm_num +decide [getRecommendations, selectCandidates, incidentRecords,
      buildCandidates, candidateOfRecord, emitLoop, projCandidate, candLE, cmpCand,
      List.insertionSort, List.orderedInsert]
  · norm_num +decide [selectCandidatesSpec, dedupKeepFirst, incidentRecords,
      candidateOfRecord, emitLoop, projCandidate, candLE, cmpCand,
      List.insertionSort, List.orderedInsert]

/-- C4 (amended): the selector deduplicates BEFORE ranking: for each
emitted entry, the kept record is the first record in storage order
among the incident records whose neighbor is that entry's item —
whichever record storage returns first, not the top-ranked one. -/
theorem c4_dedup_keeps_first_stored (userId item : String) (amount : Int)
    (state : RecState) (out : List ItemWithReasoning) (e : ItemWithReasoning)
    (h : getRecommendations userId item amount state = .ok out) (he : e ∈ out) :
    ∃ pre r post, incidentRecords userId item state = pre ++ r :: post ∧
      projCandidate (candidateOfRecord item r) = e ∧
      ∀ r' ∈ pre, ¬ (candidateOfRecord item r').recommendedItem = e.item := by
  obtain ⟨c, hce, _, hbuilt⟩ :=
    getRecommendations_out_mem userId item amount state out e h he
  obtain ⟨_, _, pre, r, post, hsplit, hcand, hfirst⟩ :=
    buildCandidates_mem item _ _ _ hbuilt
  have hitem : c.recommendedItem = e.item := by
    rw [← hce]
    rfl
  refine ⟨pre, r, post, hsplit, by rw [hcand, hce], ?_⟩
  intro r' hr'
  rw [← hitem]
  exact hfirst r' hr'

/-- Witness for C4 (amended): in the two-record counterexample state the
emitted entry is produced by the first stored record. -/
theorem c4_dedup_keeps_first_stored_witness :
    (getRecommendations "u1" "A" 5
        [⟨0, "u1", "A", "B", "b1", "x", 1/5, none, 1⟩,
         ⟨1, "u1", "A", "B", "b2", "y", 9/10, none, 2⟩] =
      .ok [⟨"B", "b1", "x", 1/5⟩]) ∧
    ∃ pre r post,
      incidentRecords "u1" "A"
        [⟨0, "u1", "A", "B", "b1", "x", 1/5, none, 1⟩,
         ⟨1, "u1", "A", "B", "b2", "y", 9/10, none, 2⟩] = pre ++ r :: post ∧
      projCandidate (candidateOfRecord "A" r) = ⟨"B", "b1", "x", 1/5⟩ ∧
      ∀ r' ∈ pre, ¬ (candidateOfRecord "A" r').recommendedItem =
        (⟨"B", "b1", "x", 1/5⟩ : ItemWithReasoning).item := by
  have hsel : getRecommendations "u1" "A" 5
      [⟨0, "u1", "A", "B", "b1", "x", 1/5, none, 1⟩,
       ⟨1, "u1", "A", "B", "b2", "y", 9/10, none, 2⟩] = .ok [⟨"B", "b1", "x", 1/5⟩] := by
    norm_num +decide [getRecommendations, selectCandidates, incidentRecords,
      buildCandidates, candidateOfRecord, emitLoop, projCandidate, candLE, cmpCand,
      List.insertionSort, List.orderedInsert]
  exact ⟨hsel, c4_dedup_keeps_first_stored "u1" "A" 5 _ _ _ hsel
    (List.mem_cons_self _ _)⟩
